import Mathlib

/-!
Shallow embedding of the kanban-board reorder/move logic of the
ghost-pm-frontend repository: the `TaskBoard` component (drag-end handling for
column reordering and card moves, grouping of cards into columns, default
columns) and the `StatusSettings` component's column reordering.

JavaScript-level behaviours (string truthiness, `||`, `findIndex` returning
-1, `arrayMove` from @dnd-kit/sortable) are modelled explicitly.  Stateful
handlers are embedded as pure functions from their inputs (render-time props
and state, drag event identifiers, and the outcome of the awaited API call)
to the list of state-mutation / API events they emit, in emission order.
-/

namespace GhostPM

/-- `TaskStatus` union type from the API client (`src/unnamed/part_004`):
`"TODO" | "IN_PROGRESS" | "IN_REVIEW" | "DONE"`. -/
inductive TaskStatus
  | TODO
  | IN_PROGRESS
  | IN_REVIEW
  | DONE
deriving DecidableEq

/-- `ProjectStatus` interface from the API client (`src/unnamed/part_004`). -/
structure ProjectStatus where
  id : String
  projectId : String
  name : String
  slug : String
  color : String
  position : Int
  isDone : Int
  createdAt : String
deriving DecidableEq

/-- `Task` interface from the API client (`src/unnamed/part_004`).  Fields the
board logic never reads (description, assignee, due date, hours, timestamps)
are omitted; `statusId?: string | null` is modelled as `Option String`, with
`none` standing for both `null` and `undefined`. -/
structure Task where
  id : String
  title : String
  status : TaskStatus
  statusId : Option String
  priority : Int
  projectId : String
deriving DecidableEq

/-- JavaScript truthiness of a `string | null | undefined` value: the empty
string, `null` and `undefined` are falsy. -/
def jsTruthy : Option String → Bool
  | none => false
  | some s => !(s == "")

/-- JavaScript `a || b` on `string | null | undefined` values. -/
def jsOr (a b : Option String) : Option String :=
  if jsTruthy a then a else b

/-- JavaScript `s.startsWith(tag)`, computed on the underlying character
lists. -/
def jsStartsWith (s tag : String) : Bool :=
  tag.data.isPrefixOf s.data

/-- JavaScript `s.replace(tag, "")` as used in the board code, where every
call site first checks `s.startsWith(tag)`; replacing the first occurrence of
a leading tag is dropping it. -/
def dropTag (s tag : String) : String :=
  if jsStartsWith s tag then String.mk (s.data.drop tag.data.length) else s

/-- JavaScript `Array.prototype.findIndex`: index of the first match, `-1`
when there is none. -/
def jsFindIndex (l : List α) (p : α → Bool) : Int :=
  match l.findIdx? p with
  | some i => (i : Int)
  | none => -1

/-- `arrayMove` from `@dnd-kit/sortable`:
`newArray.splice(to < 0 ? newArray.length + to : to, 0, newArray.splice(from, 1)[0])`
on a copy of the array.  A negative index counts from the end and an
insertion index past the end is clamped to the end, as `splice` does.  The
board only calls it with indices produced by `findIndex` checked `!== -1`,
so `from` is always in range; for an out-of-range `from` (where JavaScript
would insert `undefined`) the list is returned unchanged. -/
def jsArrayMove (l : List α) (i j : Int) : List α :=
  let i0 : Nat := if i < 0 then ((l.length : Int) + i).toNat else i.toNat
  match l[i0]? with
  | none => l
  | some x =>
    let l1 := l.eraseIdx i0
    let j0 : Nat := if j < 0 then ((l1.length : Int) + j).toNat else min j.toNat l1.length
    l1.insertIdx j0 x

/-- `DEFAULT_STATUSES` from `src/unnamed/part_002` (lines 41-46): the built-in
columns used when the project supplies none. -/
def DEFAULT_STATUSES : List ProjectStatus :=
  [ { id := "todo", projectId := "", name := "TODO", slug := "todo",
      color := "#6B7280", position := 0, isDone := 0, createdAt := "" },
    { id := "in_progress", projectId := "", name := "進行中", slug := "in_progress",
      color := "#3B82F6", position := 1, isDone := 0, createdAt := "" },
    { id := "in_review", projectId := "", name := "レビュー中", slug := "in_review",
      color := "#F59E0B", position := 2, isDone := 0, createdAt := "" },
    { id := "done", projectId := "", name := "完了", slug := "done",
      color := "#10B981", position := 3, isDone := 1, createdAt := "" } ]

/-- `STATUS_SLUG_MAP` from `src/unnamed/part_002` (lines 49-54): legacy
status-enum to slug mapping. -/
def STATUS_SLUG_MAP : TaskStatus → String
  | .TODO => "todo"
  | .IN_PROGRESS => "in_progress"
  | .IN_REVIEW => "in_review"
  | .DONE => "done"

/-- The `columns` memo of `TaskBoard` (`src/unnamed/part_002` lines 216-223):
fall back to `DEFAULT_STATUSES` when the `statuses` prop is empty, and prefer
`localStatuses` when it is non-empty and its head's `projectId` matches the
base list's head's `projectId` (JavaScript `===` on the two optional-chained
accesses). -/
def columnsOf (statuses localStatuses : List ProjectStatus) : List ProjectStatus :=
  let baseStatuses := if statuses.length > 0 then statuses else DEFAULT_STATUSES
  if localStatuses.length > 0 ∧
      localStatuses.head?.map (·.projectId) = baseStatuses.head?.map (·.projectId) then
    localStatuses
  else
    baseStatuses

/-- Effective status-id resolution used by the grouping memo
(`src/unnamed/part_002` lines 241-246): the card's own `statusId` when truthy,
else `matchingStatus?.id || columns[0]?.id` via the legacy slug lookup. -/
def groupStatusId (columns : List ProjectStatus) (t : Task) : Option String :=
  if jsTruthy t.statusId then t.statusId
  else
    let slug := STATUS_SLUG_MAP t.status
    let matchingStatus := columns.find? (fun s => s.slug == slug)
    jsOr (matchingStatus.map (·.id)) (columns.head?.map (·.id))

/-- The initial `result` record of `tasksByStatusId` (lines 236-238): one
empty bucket per column id, nothing else. -/
def initBuckets (columns : List ProjectStatus) : String → Option (List Task) :=
  fun sid => if sid ∈ columns.map (·.id) then some [] else none

/-- The `else if (columns[0])` arm of the per-task push (lines 250-252):
append the task to the first column's bucket; drop it when there are no
columns at all. -/
def pushFallback (columns : List ProjectStatus) (m : String → Option (List Task))
    (t : Task) : String → Option (List Task) :=
  match columns.head? with
  | some c0 => fun k => if k = c0.id then (m c0.id).map (fun b => b ++ [t]) else m k
  | none => m

/-- The per-task body of the `tasks.forEach` in `tasksByStatusId`
(lines 240-253): push to the resolved bucket when the resolved id is truthy
and is a key of `result`, else fall back to the first column's bucket. -/
def pushTask (columns : List ProjectStatus) (m : String → Option (List Task))
    (t : Task) : String → Option (List Task) :=
  match groupStatusId columns t with
  | some s =>
    if s ≠ "" ∧ (m s).isSome then
      fun k => if k = s then (m s).map (fun b => b ++ [t]) else m k
    else
      pushFallback columns m t
  | none => pushFallback columns m t

/-- `tasksByStatusId` (`src/unnamed/part_002` lines 233-256): the record of
per-column task buckets, as a partial map from status id to bucket. -/
def tasksByStatusId (columns : List ProjectStatus) (tasks : List Task) :
    String → Option (List Task) :=
  tasks.foldl (pushTask columns) (initBuckets columns)

/-- Specification-level description of which bucket `pushTask` sends a task
to: the resolved id when it is truthy and is a column id, else the first
column's id, else (no columns) the task is dropped. -/
def chooseBucket (columns : List ProjectStatus) (t : Task) : Option String :=
  match groupStatusId columns t with
  | some s =>
    if s ≠ "" ∧ s ∈ columns.map (·.id) then some s
    else columns.head?.map (·.id)
  | none => columns.head?.map (·.id)

/-- Total number of tasks across the per-column buckets (one bucket per
distinct column id). -/
def bucketLengthSum (columns : List ProjectStatus) (tasks : List Task) : Nat :=
  (((columns.map (·.id)).dedup).map
    (fun sid => ((tasksByStatusId columns tasks sid).getD []).length)).sum

/-- State mutations and API calls emitted by `TaskBoard.handleDragEnd`, in
emission order.  `setLocalStatuses` and `taskUpdate` are the state writes
(`setLocalStatuses(...)` and `onTaskUpdate(...)`), `statusesReorder` is the
optional `onStatusesReorder` callback, `reorderApi` / `updateTaskStatusApi`
are the persistence requests, and `alertErr` is the user-visible `alert` on a
failed reorder. -/
inductive Event
  | setLocalStatuses (cols : List ProjectStatus)
  | statusesReorder (cols : List ProjectStatus)
  | reorderApi (projectId : String) (statusIds : List String)
  | alertErr
  | taskUpdate (t : Task)
  | updateTaskStatusApi (taskId : String) (statusId : String)
deriving DecidableEq

/-- Events of the column-reorder branch of `handleDragEnd`
(`src/unnamed/part_002` lines 335-368) emitted synchronously up to and
including the `api.reorderStatuses` request (everything before the `await`
suspension point). -/
def columnDragEndOptimistic (columns : List ProjectStatus) (activeId overId : String)
    (hasReorderCb : Bool) : List Event :=
  let activeColumnId := dropTag activeId "column-"
  let overColumnId := dropTag overId "column-"
  if activeColumnId ≠ overColumnId then
    let oldIndex := jsFindIndex columns (fun c => c.id == activeColumnId)
    let newIndex := jsFindIndex columns (fun c => c.id == overColumnId)
    if oldIndex ≠ -1 ∧ newIndex ≠ -1 then
      let newColumns := jsArrayMove columns oldIndex newIndex
      (Event.setLocalStatuses newColumns ::
        (if hasReorderCb then [Event.statusesReorder newColumns] else [])) ++
      (match columns.head?.map (·.projectId) with
       | some projectId =>
         if projectId ≠ "" then
           [Event.reorderApi projectId (newColumns.map (·.id))]
         else []
       | none => [])
    else []
  else []

/-- Events of the `catch` block of the column-reorder branch (lines 358-364):
`alert(...)` then `setLocalStatuses(columns)`, where `columns` is the value
captured when the handler was invoked — the revert ignores whatever the local
state is by the time the failure arrives. -/
def columnDragEndFailure (columns : List ProjectStatus) : List Event :=
  [Event.alertErr, Event.setLocalStatuses columns]

/-- Whether a trace contains a `reorderStatuses` persistence request. -/
def issuesReorderApi (events : List Event) : Bool :=
  events.any fun e =>
    match e with
    | .reorderApi _ _ => true
    | _ => false

/-- Whether a trace contains any persistence request at all. -/
def issuesAnyApi (events : List Event) : Bool :=
  events.any fun e =>
    match e with
    | .reorderApi _ _ => true
    | .updateTaskStatusApi _ _ => true
    | _ => false

/-- Full column-reorder branch of `handleDragEnd` (lines 335-368), with the
outcome of the awaited `api.reorderStatuses` call given by `apiFails`. -/
def columnDragEnd (columns : List ProjectStatus) (activeId overId : String)
    (hasReorderCb apiFails : Bool) : List Event :=
  let activeColumnId := dropTag activeId "column-"
  let overColumnId := dropTag overId "column-"
  if activeColumnId ≠ overColumnId then
    let oldIndex := jsFindIndex columns (fun c => c.id == activeColumnId)
    let newIndex := jsFindIndex columns (fun c => c.id == overColumnId)
    if oldIndex ≠ -1 ∧ newIndex ≠ -1 then
      let newColumns := jsArrayMove columns oldIndex newIndex
      (Event.setLocalStatuses newColumns ::
        (if hasReorderCb then [Event.statusesReorder newColumns] else [])) ++
      (match columns.head?.map (·.projectId) with
       | some projectId =>
         if projectId ≠ "" then
           [Event.reorderApi projectId (newColumns.map (·.id))] ++
           (if apiFails then columnDragEndFailure columns else [])
         else []
       | none => [])
    else []
  else []

/-- Resolution of the drop target's status id in the task-move branch
(lines 377-393): strip a `droppable-`/`column-` tag, else look the target up
as a task and use its own `statusId || null`, else the legacy slug lookup
`matchingStatus?.id || null`. -/
def targetStatusIdOf (columns : List ProjectStatus) (tasks : List Task)
    (overId : String) : Option String :=
  if jsStartsWith overId "droppable-" then some (dropTag overId "droppable-")
  else if jsStartsWith overId "column-" then some (dropTag overId "column-")
  else
    match tasks.find? (fun t => t.id == overId) with
    | some overTask =>
      let t0 := jsOr overTask.statusId none
      if jsTruthy t0 then t0
      else
        let slug := STATUS_SLUG_MAP overTask.status
        let matchingStatus := columns.find? (fun s => s.slug == slug)
        jsOr (matchingStatus.map (·.id)) none
    | none => none

/-- Resolution of the dragged card's current effective status id
(lines 395-400): its own `statusId` when truthy, else
`matchingStatus?.id || null` via the legacy slug lookup. -/
def currentStatusIdOf (columns : List ProjectStatus) (t : Task) : Option String :=
  if jsTruthy t.statusId then t.statusId
  else
    let slug := STATUS_SLUG_MAP t.status
    let matchingStatus := columns.find? (fun s => s.slug == slug)
    jsOr (matchingStatus.map (·.id)) none

/-- Task-move branch of `handleDragEnd` (lines 372-414), with the outcome of
the awaited `api.updateTaskStatusById` call given by `apiFails`. -/
def taskDragEnd (columns : List ProjectStatus) (tasks : List Task)
    (activeId overId : String) (apiFails : Bool) : List Event :=
  let taskId := activeId
  match tasks.find? (fun t => t.id == taskId) with
  | none => []
  | some task =>
    let targetStatusId := targetStatusIdOf columns tasks overId
    let currentStatusId := currentStatusIdOf columns task
    if jsTruthy targetStatusId ∧ targetStatusId ≠ currentStatusId then
      Event.taskUpdate { task with statusId := targetStatusId } ::
      Event.updateTaskStatusApi taskId (targetStatusId.getD "") ::
      (if apiFails then [Event.taskUpdate task] else [])
    else []

/-- `TaskBoard.handleDragEnd` (`src/unnamed/part_002` lines 326-415).
`over = none` models a drop with no target (`if (!over) return`).  The column
branch requires both identifiers to carry the `column-` tag; the task branch
runs when `activeType === "task"`, i.e. when the dragged id does not carry
it (set in `handleDragStart`). -/
def handleDragEnd (columns : List ProjectStatus) (tasks : List Task)
    (activeId : String) (over : Option String) (hasReorderCb apiFails : Bool) :
    List Event :=
  match over with
  | none => []
  | some overId =>
    if jsStartsWith activeId "column-" ∧ jsStartsWith overId "column-" then
      columnDragEnd columns activeId overId hasReorderCb apiFails
    else if !(jsStartsWith activeId "column-") then
      taskDragEnd columns tasks activeId overId apiFails
    else []

/-- The local column order after replaying a trace's `setLocalStatuses`
writes over an initial order. -/
def applyLocalStatuses (init : List ProjectStatus) (events : List Event) :
    List ProjectStatus :=
  events.foldl
    (fun cur e =>
      match e with
      | .setLocalStatuses cols => cols
      | _ => cur)
    init

/-- The dragged card's state after replaying a trace's `onTaskUpdate` writes
over its initial state. -/
def applyTaskUpdates (init : Task) (events : List Event) : Task :=
  events.foldl
    (fun cur e =>
      match e with
      | .taskUpdate t => t
      | _ => cur)
    init

/-- State mutations and API calls emitted by `StatusSettings.handleDragEnd`
(`src/src/components/project-settings/status-settings.tsx`). -/
inductive SettingsEvent
  | statusesUpdate (cols : List ProjectStatus)
  | clearError
  | reorderApi (projectId : String) (statusIds : List String)
  | setErrorMsg
deriving DecidableEq

/-- `StatusSettings.handleDragEnd` (status-settings.tsx lines 225-248):
optimistic `onStatusesUpdate(newStatuses)`, `setError(null)`, the
`api.reorderStatuses` request, and on failure `setError(...)` plus the revert
`onStatusesUpdate(statuses)` with the captured `statuses` prop. -/
def settingsDragEnd (projectId : String) (statuses : List ProjectStatus)
    (activeId : String) (over : Option String) (apiFails : Bool) :
    List SettingsEvent :=
  match over with
  | none => []
  | some overId =>
    if activeId ≠ overId then
      let oldIndex := jsFindIndex statuses (fun s => s.id == activeId)
      let newIndex := jsFindIndex statuses (fun s => s.id == overId)
      let newStatuses := jsArrayMove statuses oldIndex newIndex
      [SettingsEvent.statusesUpdate newStatuses, SettingsEvent.clearError,
       SettingsEvent.reorderApi projectId (newStatuses.map (·.id))] ++
      (if apiFails then [SettingsEvent.setErrorMsg, SettingsEvent.statusesUpdate statuses]
       else [])
    else []

/-- Whether a settings trace contains a `reorderStatuses` request. -/
def settingsIssuesApi (events : List SettingsEvent) : Bool :=
  events.any fun e =>
    match e with
    | .reorderApi _ _ => true
    | _ => false

/-- The parent-held column order after replaying a settings trace's
`onStatusesUpdate` writes over an initial order. -/
def applySettingsStatuses (init : List ProjectStatus) (events : List SettingsEvent) :
    List ProjectStatus :=
  events.foldl
    (fun cur e =>
      match e with
      | .statusesUpdate cols => cols
      | _ => cur)
    init

/-- The race of `C3` / spec §9, executed sequentially on the single JS
thread: gesture 1 runs its synchronous part against `columns` and suspends at
the `await`; gesture 2 then runs its synchronous part against the re-rendered
order; finally gesture 1's failure continuation runs.  Its revert writes the
`columns` closure value captured at gesture 1, regardless of the state
written meanwhile. -/
def raceLocalStatuses (columns : List ProjectStatus) (a1 o1 a2 o2 : String)
    (hasReorderCb : Bool) : List ProjectStatus :=
  let s1 := applyLocalStatuses columns (columnDragEndOptimistic columns a1 o1 hasReorderCb)
  let s2 := applyLocalStatuses s1 (columnDragEndOptimistic s1 a2 o2 hasReorderCb)
  applyLocalStatuses s2 (columnDragEndFailure columns)

/-- Sample project columns (non-empty `projectId`, so reorders are persisted). -/
def colA : ProjectStatus :=
  { id := "a", projectId := "p1", name := "A", slug := "a",
    color := "#111111", position := 0, isDone := 0, createdAt := "" }

/-- Second sample column. -/
def colB : ProjectStatus :=
  { id := "b", projectId := "p1", name := "B", slug := "b",
    color := "#222222", position := 1, isDone := 0, createdAt := "" }

/-- Third sample column. -/
def colC : ProjectStatus :=
  { id := "c", projectId := "p1", name := "C", slug := "c",
    color := "#333333", position := 2, isDone := 0, createdAt := "" }

/-- Fourth sample column. -/
def colD : ProjectStatus :=
  { id := "d", projectId := "p1", name := "D", slug := "d",
    color := "#444444", position := 3, isDone := 1, createdAt := "" }

/-- Sample four-column board. -/
def sampleColumns : List ProjectStatus := [colA, colB, colC, colD]

/-- A project with columns slugged `todo`, `in_progress`, `done` (no
`in_review` column), as in the C2 scenario. -/
def threeColumns : List ProjectStatus :=
  [ { id := "todo", projectId := "p1", name := "Todo", slug := "todo",
      color := "#111111", position := 0, isDone := 0, createdAt := "" },
    { id := "in_progress", projectId := "p1", name := "In progress", slug := "in_progress",
      color := "#222222", position := 1, isDone := 0, createdAt := "" },
    { id := "done", projectId := "p1", name := "Done", slug := "done",
      color := "#333333", position := 2, isDone := 1, createdAt := "" } ]

/-- A card with no column identifier whose legacy status is `IN_REVIEW`. -/
def reviewCard : Task :=
  { id := "t2", title := "Review me", status := .IN_REVIEW, statusId := none,
    priority := 3, projectId := "p1" }

/-- A card sitting in the `todo` column of `threeColumns`. -/
def todoCard : Task :=
  { id := "t1", title := "Do me", status := .TODO, statusId := some "todo",
    priority := 2, projectId := "p1" }

/-! ### List-move lemmas (column reordering) -/

lemma insertIdx_get_eraseIdx :
    ∀ (l : List α) (n : Nat) (h : n < l.length),
      (l.eraseIdx n).insertIdx n (l.get ⟨n, h⟩) = l
  | _ :: _, 0, _ => by simp [List.eraseIdx, List.insertIdx]
  | a :: as, n + 1, h => by
    simp only [List.eraseIdx, List.get, List.insertIdx_succ_cons]
    exact congrArg (a :: ·) (insertIdx_get_eraseIdx as n (Nat.lt_of_succ_lt_succ h))

lemma jsArrayMove_eq (l : List α) (s d : Nat) (hs : s < l.length) (hd : d ≤ l.length - 1) :
    jsArrayMove l (s : Int) (d : Int) = (l.eraseIdx s).insertIdx d (l.get ⟨s, hs⟩) := by
  have hget : l[s]? = some (l.get ⟨s, hs⟩) := by
    rw [List.getElem?_eq_getElem hs]
    rfl
  have hlen : (l.eraseIdx s).length = l.length - 1 := List.length_eraseIdx_of_lt hs
  simp only [jsArrayMove]
  have h1 : ¬((s : Int) < 0) := by omega
  have h2 : ¬((d : Int) < 0) := by omega
  simp only [if_neg h1, if_neg h2, Int.toNat_natCast, hget]
  have h3 : min d (l.eraseIdx s).length = d := by omega
  simp [h3]

lemma jsArrayMove_length (l : List α) (s d : Nat) (hs : s < l.length) (hd : d < l.length) :
    (jsArrayMove l (s : Int) (d : Int)).length = l.length := by
  rw [jsArrayMove_eq l s d hs (by omega)]
  have hlen : (l.eraseIdx s).length = l.length - 1 := List.length_eraseIdx_of_lt hs
  rw [List.length_insertIdx d _ (by omega)]
  omega

/-- C5: the column reorder operation removes the element at the source index
and reinserts it at the destination index, preserving the relative order of
all other elements (the moved element is found at the destination index, and
removing it from the result gives the same list as removing it from the
input); in particular on four columns `[A, B, C, D]` the move `(0, 2)` yields
`[B, C, A, D]`. -/
theorem c5_reorder_is_remove_reinsert (l : List ProjectStatus) (s d : Nat)
    (hs : s < l.length) (hd : d < l.length) :
    ((jsArrayMove l (s : Int) (d : Int)).length = l.length
      ∧ (jsArrayMove l (s : Int) (d : Int))[d]? = l[s]?
      ∧ (jsArrayMove l (s : Int) (d : Int)).eraseIdx d = l.eraseIdx s)
    ∧ ∀ A B C D : ProjectStatus, jsArrayMove [A, B, C, D] 0 2 = [B, C, A, D] := by
  have hlen : (l.eraseIdx s).length = l.length - 1 := List.length_eraseIdx_of_lt hs
  refine ⟨⟨jsArrayMove_length l s d hs hd, ?_, ?_⟩, fun A B C D => rfl⟩
  · rw [jsArrayMove_eq l s d hs (by omega), List.getElem?_eq_getElem hs]
    have hd2 : d < ((l.eraseIdx s).insertIdx d (l.get ⟨s, hs⟩)).length := by
      rw [List.length_insertIdx d _ (by omega)]; omega
    rw [List.getElem?_eq_getElem hd2]
    rw [List.getElem_insertIdx_self _ _ _ (by omega)]
    rfl
  · rw [jsArrayMove_eq l s d hs (by omega), List.eraseIdx_insertIdx]

/-- Witness for C5 at `sampleColumns`, `s = 0`, `d = 2`. -/
theorem c5_witness :
    (0 < sampleColumns.length ∧ 2 < sampleColumns.length)
    ∧ (jsArrayMove sampleColumns ((0 : Nat) : Int) ((2 : Nat) : Int)).eraseIdx 2 =
        sampleColumns.eraseIdx 0 :=
  ⟨⟨by decide, by decide⟩,
   (c5_reorder_is_remove_reinsert sampleColumns 0 2 (by decide) (by decide)).1.2.2⟩

/-- C6: a column reorder `(s, d)` followed by the inverse reorder `(d, s)`
(moving the element back from its post-move index) restores the original
column order exactly. -/
theorem c6_inverse_reorder_restores (l : List ProjectStatus) (s d : Nat)
    (hs : s < l.length) (hd : d < l.length) :
    jsArrayMove (jsArrayMove l (s : Int) (d : Int)) (d : Int) (s : Int) = l := by
  rw [jsArrayMove_eq l s d hs (by omega)]
  have hlen : (l.eraseIdx s).length = l.length - 1 := List.length_eraseIdx_of_lt hs
  have hm : ((l.eraseIdx s).insertIdx d (l.get ⟨s, hs⟩)).length = l.length := by
    rw [List.length_insertIdx d _ (by omega)]; omega
  rw [jsArrayMove_eq _ d s (by omega) (by omega)]
  have hget : ((l.eraseIdx s).insertIdx d (l.get ⟨s, hs⟩)).get ⟨d, by omega⟩ =
      l.get ⟨s, hs⟩ := by
    have := List.getElem_insertIdx_self (l.eraseIdx s) (l.get ⟨s, hs⟩) d (by omega)
    simpa using this
  rw [hget, List.eraseIdx_insertIdx, insertIdx_get_eraseIdx l s hs]

/-- Witness for C6 at `sampleColumns`, `s = 0`, `d = 2`. -/
theorem c6_witness :
    (0 < sampleColumns.length ∧ 2 < sampleColumns.length)
    ∧ jsArrayMove (jsArrayMove sampleColumns ((0 : Nat) : Int) ((2 : Nat) : Int))
        ((2 : Nat) : Int) ((0 : Nat) : Int) = sampleColumns :=
  ⟨⟨by decide, by decide⟩,
   c6_inverse_reorder_restores sampleColumns 0 2 (by decide) (by decide)⟩

/-! ### C1: failed reorder reverts the local order -/

lemma settingsDragEnd_fail_reverts (projectId : String) (statuses : List ProjectStatus)
    (activeId overId : String)
    (h : settingsIssuesApi (settingsDragEnd projectId statuses activeId (some overId) true) = true) :
    applySettingsStatuses statuses (settingsDragEnd projectId statuses activeId (some overId) true) =
      statuses := by
  simp only [settingsDragEnd] at h ⊢
  by_cases hne : activeId ≠ overId
  · simp only [if_pos hne] at h ⊢
    simp [applySettingsStatuses]
  · simp only [if_neg hne] at h
    simp [settingsIssuesApi] at h

lemma taskDragEnd_no_reorderApi (columns : List ProjectStatus) (tasks : List Task)
    (activeId overId : String) (apiFails : Bool) :
    issuesReorderApi (taskDragEnd columns tasks activeId overId apiFails) = false := by
  simp only [taskDragEnd]
  cases tasks.find? (fun t => t.id == activeId) with
  | none => simp [issuesReorderApi]
  | some task =>
    by_cases hg : jsTruthy (targetStatusIdOf columns tasks overId)
        ∧ targetStatusIdOf columns tasks overId ≠ currentStatusIdOf columns task
    · simp only [if_pos hg]
      cases apiFails <;> simp [issuesReorderApi]
    · simp only [if_neg hg]
      simp [issuesReorderApi]

lemma columnDragEnd_fail_reverts (columns : List ProjectStatus) (activeId overId : String)
    (hasCb : Bool)
    (h : issuesReorderApi (columnDragEnd columns activeId overId hasCb true) = true) :
    applyLocalStatuses columns (columnDragEnd columns activeId overId hasCb true) = columns := by
  simp only [columnDragEnd] at h ⊢
  by_cases h1 : dropTag activeId "column-" ≠ dropTag overId "column-"
  · simp only [if_pos h1] at h ⊢
    by_cases h2 : jsFindIndex columns (fun c => c.id == dropTag activeId "column-") ≠ -1
        ∧ jsFindIndex columns (fun c => c.id == dropTag overId "column-") ≠ -1
    · simp only [if_pos h2] at h ⊢
      cases hpid : columns.head?.map (·.projectId) with
      | none =>
        rw [hpid] at h
        cases hasCb <;> simp [issuesReorderApi] at h
      | some pid =>
        rw [hpid] at h
        by_cases h3 : pid = ""
        · subst h3
          cases hasCb <;> simp [issuesReorderApi] at h
        · cases hasCb <;>
            simp [h3, applyLocalStatuses, columnDragEndFailure, List.foldl]
    · simp only [if_neg h2] at h
      simp [issuesReorderApi] at h
  · simp only [if_neg h1] at h
    simp [issuesReorderApi] at h




/-- C1: when a column reorder's persistence request fails (with no other
operation interleaved), the locally visible column order after the failure is
handled equals, element for element, the order visible before the reorder was
attempted — in the board (`TaskBoard.handleDragEnd`) and in the settings
panel (`StatusSettings.handleDragEnd`). -/
theorem c1_failed_reorder_restores_order
    (columns : List ProjectStatus) (tasks : List Task) (activeId overId : String)
    (hasCb : Bool) (settingsProjectId sActiveId sOverId : String)
    (h1 : issuesReorderApi (handleDragEnd columns tasks activeId (some overId) hasCb true) = true)
    (h2 : settingsIssuesApi
      (settingsDragEnd settingsProjectId columns sActiveId (some sOverId) true) = true) :
    applyLocalStatuses columns
        (handleDragEnd columns tasks activeId (some overId) hasCb true) = columns
    ∧ applySettingsStatuses columns
        (settingsDragEnd settingsProjectId columns sActiveId (some sOverId) true) = columns := by
  constructor
  · simp only [handleDragEnd] at h1 ⊢
    by_cases hc : jsStartsWith activeId "column-" ∧ jsStartsWith overId "column-"
    · simp only [if_pos hc] at h1 ⊢
      exact columnDragEnd_fail_reverts columns activeId overId hasCb h1
    · simp only [if_neg hc] at h1 ⊢
      by_cases ht : (!jsStartsWith activeId "column-") = true
      · rw [if_pos ht] at h1
        rw [taskDragEnd_no_reorderApi] at h1
        exact absurd h1 (by simp)
      · rw [if_neg ht] at h1
        simp [issuesReorderApi] at h1
  · exact settingsDragEnd_fail_reverts settingsProjectId columns sActiveId sOverId h2

/-- Witness for C1: a concrete failing reorder of `sampleColumns`. -/
theorem c1_witness :
    (issuesReorderApi
        (handleDragEnd sampleColumns [] "column-a" (some "column-c") true true) = true)
    ∧ (settingsIssuesApi (settingsDragEnd "p1" sampleColumns "a" (some "c") true) = true)
    ∧ applyLocalStatuses sampleColumns
        (handleDragEnd sampleColumns [] "column-a" (some "column-c") true true) = sampleColumns
    ∧ applySettingsStatuses sampleColumns
        (settingsDragEnd "p1" sampleColumns "a" (some "c") true) = sampleColumns :=
  ⟨by decide, by decide,
   (c1_failed_reorder_restores_order sampleColumns [] "column-a" "column-c" true
      "p1" "a" "c" (by decide) (by decide)).1,
   (c1_failed_reorder_restores_order sampleColumns [] "column-a" "column-c" true
      "p1" "a" "c" (by decide) (by decide)).2⟩

/-! ### C3, C8, C9, C7, C4 -/

/-- C3 (code bug documented in spec design notes): with a second column
reorder applied optimistically while the first reorder's request is in
flight, the first request's failure handler reverts to the snapshot captured
at the first gesture, clobbering the second reorder's order.  On
`sampleColumns = [a, b, c, d]`, gesture 1 moves `a` over `b` (persisted
reorder, it will fail), gesture 2 moves `c` over `d` giving the later
optimistic order `[b, a, d, c]`; after the stale failure is handled the local
order is back to `[a, b, c, d]`, not `[b, a, d, c]` as the claim requires. -/
theorem c3_stale_revert_clobbers_newer_order :
    raceLocalStatuses sampleColumns "column-a" "column-b" "column-c" "column-d" true
      = sampleColumns
    ∧ applyLocalStatuses
        (applyLocalStatuses sampleColumns
          (columnDragEndOptimistic sampleColumns "column-a" "column-b" true))
        (columnDragEndOptimistic
          (applyLocalStatuses sampleColumns
            (columnDragEndOptimistic sampleColumns "column-a" "column-b" true))
          "column-c" "column-d" true)
      = [colB, colA, colD, colC]
    ∧ ([colB, colA, colD, colC] : List ProjectStatus) ≠ sampleColumns
    ∧ issuesReorderApi (columnDragEndOptimistic sampleColumns "column-a" "column-b" true)
      = true := by
  refine ⟨by decide, by decide, by decide, by decide⟩

/-- Decomposition justifying the race model: the full column-reorder branch
is its synchronous part followed, exactly when a persistence request was
issued and failed, by the failure continuation. -/
lemma columnDragEnd_split (columns : List ProjectStatus) (activeId overId : String)
    (hasCb apiFails : Bool) :
    columnDragEnd columns activeId overId hasCb apiFails =
      columnDragEndOptimistic columns activeId overId hasCb ++
        (if apiFails ∧
            issuesReorderApi (columnDragEndOptimistic columns activeId overId hasCb) = true then
          columnDragEndFailure columns
        else []) := by
  simp only [columnDragEnd, columnDragEndOptimistic]
  by_cases h1 : dropTag activeId "column-" ≠ dropTag overId "column-"
  · simp only [if_pos h1]
    by_cases h2 : jsFindIndex columns (fun c => c.id == dropTag activeId "column-") ≠ -1
        ∧ jsFindIndex columns (fun c => c.id == dropTag overId "column-") ≠ -1
    · simp only [if_pos h2]
      cases hpid : columns.head?.map (·.projectId) with
      | none => cases hasCb <;> cases apiFails <;> simp [issuesReorderApi]
      | some pid =>
        by_cases h3 : pid = ""
        · subst h3
          cases hasCb <;> cases apiFails <;> simp [issuesReorderApi]
        · cases hasCb <;> cases apiFails <;> simp [h3, issuesReorderApi]
    · simp only [if_neg h2]
      cases apiFails <;> simp [issuesReorderApi]
  · simp only [if_neg h1]
    cases apiFails <;> simp [issuesReorderApi]



/-- Counterexample to C8 as stated: a render state with an empty `statuses`
prop but a non-empty `localStatuses` (reachable by reordering the default
columns, which is applied locally without persistence) uses the reordered
local list, not the four built-in defaults. -/
theorem c8_counterexample :
    columnsOf [] (jsArrayMove DEFAULT_STATUSES 0 1) ≠ DEFAULT_STATUSES := by
  decide

/-- C8 (amended): when the board is rendered with an empty status list and an
empty local column order (no local reorder has occurred), the column list
used is exactly the four built-in defaults, with slugs `todo`, `in_progress`,
`in_review`, `done`, positions 0-3 in that order, and only `done` marked as
counting complete. -/
theorem c8_empty_statuses_defaults :
    columnsOf [] [] = DEFAULT_STATUSES
    ∧ DEFAULT_STATUSES.map (·.slug) = ["todo", "in_progress", "in_review", "done"]
    ∧ DEFAULT_STATUSES.map (·.position) = [0, 1, 2, 3]
    ∧ DEFAULT_STATUSES.map (·.isDone) = [0, 0, 0, 1] := by
  refine ⟨by decide, by decide, by decide, by decide⟩

/-- C9: a column reorder performed while the first column's `projectId` is
the empty string (the built-in defaults) applies the new order to local state
but issues no persistence request, so its outcome cannot depend on a request
result and it is never reverted. -/
theorem c9_default_columns_reorder_local_only
    (columns : List ProjectStatus) (tasks : List Task) (activeId overId : String)
    (hasCb apiFails : Bool)
    (hpid : columns.head?.map (·.projectId) = some "")
    (ha : jsStartsWith activeId "column-" = true)
    (ho : jsStartsWith overId "column-" = true)
    (hne : dropTag activeId "column-" ≠ dropTag overId "column-")
    (hi : jsFindIndex columns (fun c => c.id == dropTag activeId "column-") ≠ -1)
    (hj : jsFindIndex columns (fun c => c.id == dropTag overId "column-") ≠ -1) :
    handleDragEnd columns tasks activeId (some overId) hasCb apiFails
      = handleDragEnd columns tasks activeId (some overId) hasCb false
    ∧ issuesAnyApi (handleDragEnd columns tasks activeId (some overId) hasCb apiFails) = false
    ∧ applyLocalStatuses columns (handleDragEnd columns tasks activeId (some overId) hasCb apiFails)
      = jsArrayMove columns
          (jsFindIndex columns (fun c => c.id == dropTag activeId "column-"))
          (jsFindIndex columns (fun c => c.id == dropTag overId "column-")) := by
  have hbranch : ∀ f : Bool, handleDragEnd columns tasks activeId (some overId) hasCb f
      = columnDragEnd columns activeId overId hasCb f := by
    intro f
    simp only [handleDragEnd, ha, ho]
    simp
  have hcol : ∀ f : Bool, columnDragEnd columns activeId overId hasCb f
      = (Event.setLocalStatuses (jsArrayMove columns
            (jsFindIndex columns (fun c => c.id == dropTag activeId "column-"))
            (jsFindIndex columns (fun c => c.id == dropTag overId "column-"))) ::
          (if hasCb then [Event.statusesReorder (jsArrayMove columns
            (jsFindIndex columns (fun c => c.id == dropTag activeId "column-"))
            (jsFindIndex columns (fun c => c.id == dropTag overId "column-")))] else [])) := by
    intro f
    simp only [columnDragEnd, if_pos hne, if_pos (And.intro hi hj), hpid]
    simp
  refine ⟨by rw [hbranch, hbranch, hcol, hcol], ?_, ?_⟩
  · rw [hbranch, hcol]
    cases hasCb <;> simp [issuesAnyApi]
  · rw [hbranch, hcol]
    cases hasCb <;> simp [applyLocalStatuses]

/-- Witness for C9: reordering the default columns (`todo` over `done`). -/
theorem c9_witness :
    issuesAnyApi (handleDragEnd DEFAULT_STATUSES [] "column-todo" (some "column-done") true true)
      = false
    ∧ applyLocalStatuses DEFAULT_STATUSES
        (handleDragEnd DEFAULT_STATUSES [] "column-todo" (some "column-done") true true)
      = jsArrayMove DEFAULT_STATUSES
          (jsFindIndex DEFAULT_STATUSES (fun c => c.id == dropTag "column-todo" "column-"))
          (jsFindIndex DEFAULT_STATUSES (fun c => c.id == dropTag "column-done" "column-")) :=
  ⟨(c9_default_columns_reorder_local_only DEFAULT_STATUSES [] "column-todo" "column-done"
      true true (by decide) (by decide) (by decide) (by decide) (by decide) (by decide)).2.1,
   (c9_default_columns_reorder_local_only DEFAULT_STATUSES [] "column-todo" "column-done"
      true true (by decide) (by decide) (by decide) (by decide) (by decide) (by decide)).2.2⟩



/-- Counterexample to C7 as stated: the move branch resolves the card's
current column without the first-column fallback
(`matchingStatus?.id || null`, part_002 lines 395-400), while the card's
effective column — the column the grouping displays it in — does fall back to
the first column.  `reviewCard` (no `statusId`, legacy status `IN_REVIEW`, no
matching slug in `threeColumns`) is bucketed under the first column `todo`;
dropping it onto that very column is not rejected: the handler optimistically
assigns `todo` and issues a persistence request, so the card-move no-op part
of the claim is false of the code. -/
theorem c7_counterexample :
    chooseBucket threeColumns reviewCard = some "todo"
    ∧ tasksByStatusId threeColumns [reviewCard] "todo" = some [reviewCard]
    ∧ targetStatusIdOf threeColumns [reviewCard] "droppable-todo" = some "todo"
    ∧ currentStatusIdOf threeColumns reviewCard = none
    ∧ handleDragEnd threeColumns [reviewCard] "t2" (some "droppable-todo") true false
        = [Event.taskUpdate { reviewCard with statusId := some "todo" },
           Event.updateTaskStatusApi "t2" "todo"]
    ∧ handleDragEnd threeColumns [reviewCard] "t2" (some "droppable-todo") true false ≠ [] := by
  refine ⟨by decide, by decide, by decide, by decide, by decide, by decide⟩

/-- C7 (amended): a column reorder whose (stripped) source and destination
identifiers coincide, a column reorder whose source or destination identifier
is not found in the current column list, and a card move whose resolved
target column equals the card's current column as resolved by the move
handler (direct column identifier, else legacy status-to-slug lookup, else
null — with no first-column fallback), are each rejected before any mutation:
the handler emits no events at all, hence the local state is unchanged and no
persistence request is issued.  (A card resolvable only through the
first-column fallback is not covered: see the counterexample.) -/
theorem c7_invalid_operations_are_noops
    (columns : List ProjectStatus) (tasks : List Task)
    (a1 o1 : String)
    (ha1 : jsStartsWith a1 "column-" = true) (ho1 : jsStartsWith o1 "column-" = true)
    (heq : dropTag a1 "column-" = dropTag o1 "column-")
    (a2 o2 : String)
    (ha2 : jsStartsWith a2 "column-" = true) (ho2 : jsStartsWith o2 "column-" = true)
    (hnf : jsFindIndex columns (fun c => c.id == dropTag a2 "column-") = -1
      ∨ jsFindIndex columns (fun c => c.id == dropTag o2 "column-") = -1)
    (a3 o3 : String) (task : Task)
    (ha3 : jsStartsWith a3 "column-" = false)
    (hfind : tasks.find? (fun t => t.id == a3) = some task)
    (htc : targetStatusIdOf columns tasks o3 = currentStatusIdOf columns task)
    (hasCb apiFails : Bool) :
    (handleDragEnd columns tasks a1 (some o1) hasCb apiFails = []
      ∧ applyLocalStatuses columns (handleDragEnd columns tasks a1 (some o1) hasCb apiFails)
          = columns
      ∧ issuesAnyApi (handleDragEnd columns tasks a1 (some o1) hasCb apiFails) = false)
    ∧ handleDragEnd columns tasks a2 (some o2) hasCb apiFails = []
    ∧ handleDragEnd columns tasks a3 (some o3) hasCb apiFails = [] := by
  have hb1 : handleDragEnd columns tasks a1 (some o1) hasCb apiFails = [] := by
    simp only [handleDragEnd, ha1, ho1]
    simp only [columnDragEnd, heq]
    simp
  have hb2 : handleDragEnd columns tasks a2 (some o2) hasCb apiFails = [] := by
    simp only [handleDragEnd, ha2, ho2]
    simp only [columnDragEnd]
    by_cases hne : dropTag a2 "column-" ≠ dropTag o2 "column-"
    · simp only [if_pos hne]
      have : ¬(jsFindIndex columns (fun c => c.id == dropTag a2 "column-") ≠ -1
          ∧ jsFindIndex columns (fun c => c.id == dropTag o2 "column-") ≠ -1) := by
        rcases hnf with h | h
        · exact fun hcontra => hcontra.1 h
        · exact fun hcontra => hcontra.2 h
      simp [this]
    · simp [hne]
  have hb3 : handleDragEnd columns tasks a3 (some o3) hasCb apiFails = [] := by
    simp only [handleDragEnd, ha3]
    simp only [taskDragEnd, hfind, htc]
    simp
  exact ⟨⟨hb1, by rw [hb1]; rfl, by rw [hb1]; rfl⟩, hb2, hb3⟩

/-- Witness for C7: the three no-op scenarios on concrete inputs. -/
theorem c7_witness :
    handleDragEnd sampleColumns [todoCard] "column-a" (some "column-a") true true = []
    ∧ handleDragEnd sampleColumns [todoCard] "column-a" (some "column-zz") true true = []
    ∧ handleDragEnd sampleColumns [todoCard] "t1" (some "droppable-todo") true true = [] := by
  have h := c7_invalid_operations_are_noops sampleColumns [todoCard]
    "column-a" "column-a" (by decide) (by decide) (by decide)
    "column-a" "column-zz" (by decide) (by decide) (by decide)
    "t1" "droppable-todo" todoCard (by decide) (by decide) (by decide) true true
  exact ⟨h.1.1, h.2.1, h.2.2⟩



/-- C4: for a card move whose resolved target column differs from the card's
current effective column, the card's column assignment is set to the target
in local state before the persistence request is issued (the `taskUpdate`
event precedes the `updateTaskStatusApi` event in the emitted trace); on
success the card's effective column is the target, and on failure the card is
reverted exactly to its pre-move value. -/
theorem c4_card_move_optimistic_then_revert
    (columns : List ProjectStatus) (tasks : List Task) (activeId overId tid : String)
    (task : Task) (hasCb : Bool)
    (hactive : jsStartsWith activeId "column-" = false)
    (hfind : tasks.find? (fun t => t.id == activeId) = some task)
    (htarget : targetStatusIdOf columns tasks overId = some tid)
    (htid : tid ≠ "")
    (hdiff : (some tid : Option String) ≠ currentStatusIdOf columns task) :
    handleDragEnd columns tasks activeId (some overId) hasCb false
      = [Event.taskUpdate { task with statusId := some tid },
         Event.updateTaskStatusApi activeId tid]
    ∧ handleDragEnd columns tasks activeId (some overId) hasCb true
      = [Event.taskUpdate { task with statusId := some tid },
         Event.updateTaskStatusApi activeId tid,
         Event.taskUpdate task]
    ∧ currentStatusIdOf columns
        (applyTaskUpdates task (handleDragEnd columns tasks activeId (some overId) hasCb false))
      = some tid
    ∧ applyTaskUpdates task (handleDragEnd columns tasks activeId (some overId) hasCb true)
      = task := by
  have hguard : jsTruthy (some tid) = true
      ∧ (some tid : Option String) ≠ currentStatusIdOf columns task :=
    ⟨by simp [jsTruthy, htid], hdiff⟩
  have htrace : ∀ f : Bool, handleDragEnd columns tasks activeId (some overId) hasCb f
      = Event.taskUpdate { task with statusId := some tid } ::
        Event.updateTaskStatusApi activeId tid ::
        (if f then [Event.taskUpdate task] else []) := by
    intro f
    simp only [handleDragEnd, hactive]
    simp only [Bool.false_eq_true, false_and, if_false, Bool.not_false, if_true]
    simp only [taskDragEnd, hfind, htarget]
    rw [if_pos hguard]
    rfl
  refine ⟨by rw [htrace]; rfl, by rw [htrace]; rfl, ?_, by rw [htrace]; rfl⟩
  rw [htrace]
  simp only [if_neg (by simp : ¬(false = true))]
  show currentStatusIdOf columns { task with statusId := some tid } = some tid
  simp [currentStatusIdOf, jsTruthy, htid]

/-- Witness for C4: moving `todoCard` from `todo` to `done` in
`threeColumns`. -/
theorem c4_witness :
    handleDragEnd threeColumns [todoCard] "t1" (some "droppable-done") true false
      = [Event.taskUpdate { todoCard with statusId := some "done" },
         Event.updateTaskStatusApi "t1" "done"]
    ∧ applyTaskUpdates todoCard
        (handleDragEnd threeColumns [todoCard] "t1" (some "droppable-done") true true)
      = todoCard := by
  have h := c4_card_move_optimistic_then_revert threeColumns [todoCard] "t1"
    "droppable-done" "done" todoCard true (by decide) (by decide) (by decide)
    (by decide) (by decide)
  exact ⟨h.1, h.2.2.2⟩

/-! ### C2, C10: grouping of cards into column buckets -/

lemma pushFallback_apply (columns : List ProjectStatus) (m : String → Option (List Task))
    (t : Task) (k : String) :
    pushFallback columns m t k
      = if columns.head?.map (·.id) = some k then (m k).map (fun b => b ++ [t]) else m k := by
  simp only [pushFallback]
  cases columns.head? with
  | none => simp
  | some c0 =>
    by_cases hk : k = c0.id
    · subst hk; simp
    · simp [hk, Ne.symm hk]

lemma pushTask_apply (columns : List ProjectStatus) (m : String → Option (List Task))
    (t : Task) (hm : ∀ k, (m k).isSome ↔ k ∈ columns.map (·.id)) (k : String) :
    pushTask columns m t k
      = if chooseBucket columns t = some k then (m k).map (fun b => b ++ [t]) else m k := by
  cases hg : groupStatusId columns t with
  | none =>
    simp only [pushTask, chooseBucket, hg]
    rw [pushFallback_apply]
  | some s =>
    by_cases hcond : s ≠ "" ∧ (m s).isSome
    · have hsmem : s ∈ columns.map (·.id) := (hm s).mp hcond.2
      have hchoose : chooseBucket columns t = some s := by
        simp only [chooseBucket, hg]
        exact if_pos ⟨hcond.1, hsmem⟩
      rw [hchoose]
      simp only [pushTask, hg, if_pos hcond]
      by_cases hk : k = s
      · subst hk
        simp
      · simp [hk, Ne.symm hk]
    · have hcond2 : ¬(s ≠ "" ∧ s ∈ columns.map (·.id)) := by
        intro hcontra
        exact hcond ⟨hcontra.1, (hm s).mpr hcontra.2⟩
      have hchoose : chooseBucket columns t = columns.head?.map (·.id) := by
        simp only [chooseBucket, hg]
        exact if_neg hcond2
      rw [hchoose]
      simp only [pushTask, hg, if_neg hcond]
      rw [pushFallback_apply]

lemma pushTask_isSome (columns : List ProjectStatus) (m : String → Option (List Task))
    (t : Task) (k : String) :
    (pushTask columns m t k).isSome = (m k).isSome := by
  have hfb : (pushFallback columns m t k).isSome = (m k).isSome := by
    rw [pushFallback_apply]
    by_cases h : columns.head?.map (·.id) = some k
    · simp [h]
    · simp [h]
  cases hg : groupStatusId columns t with
  | none =>
    simp only [pushTask, hg]
    exact hfb
  | some s =>
    simp only [pushTask, hg]
    by_cases hcond : s ≠ "" ∧ (m s).isSome
    · rw [if_pos hcond]
      by_cases hk : k = s
      · subst hk; simp
      · simp [hk]
    · rw [if_neg hcond]
      exact hfb

lemma foldl_pushTask_isSome (columns : List ProjectStatus) :
    ∀ (tasks : List Task) (m : String → Option (List Task)) (k : String),
      ((tasks.foldl (pushTask columns) m) k).isSome = (m k).isSome
  | [], m, k => rfl
  | t :: ts, m, k => by
    rw [List.foldl_cons, foldl_pushTask_isSome columns ts (pushTask columns m t) k,
      pushTask_isSome]

lemma foldl_pushTask_eq (columns : List ProjectStatus) :
    ∀ (tasks : List Task) (m : String → Option (List Task)),
      (∀ k, (m k).isSome ↔ k ∈ columns.map (·.id)) →
      ∀ (sid : String) (l : List Task), m sid = some l →
        tasks.foldl (pushTask columns) m sid
          = some (l ++ tasks.filter (fun t => chooseBucket columns t == some sid))
  | [], m, hm, sid, l, hl => by simp [hl]
  | t :: ts, m, hm, sid, l, hl => by
    rw [List.foldl_cons]
    have hm2 : ∀ k, (pushTask columns m t k).isSome ↔ k ∈ columns.map (·.id) := by
      intro k
      rw [pushTask_isSome]
      exact hm k
    by_cases hc : chooseBucket columns t = some sid
    · have hstep : pushTask columns m t sid = some (l ++ [t]) := by
        rw [pushTask_apply columns m t hm sid, if_pos hc, hl]
        rfl
      rw [foldl_pushTask_eq columns ts _ hm2 sid (l ++ [t]) hstep, List.filter_cons]
      simp [hc]
    · have hstep : pushTask columns m t sid = some l := by
        rw [pushTask_apply columns m t hm sid, if_neg hc, hl]
      rw [foldl_pushTask_eq columns ts _ hm2 sid l hstep, List.filter_cons]
      have : (chooseBucket columns t == some sid) = false := by
        simp [hc]
      simp [this]

lemma initBuckets_isSome (columns : List ProjectStatus) (k : String) :
    (initBuckets columns k).isSome ↔ k ∈ columns.map (·.id) := by
  simp only [initBuckets]
  by_cases h : k ∈ columns.map (·.id)
  · simp [h]
  · simp [h]

lemma tasksByStatusId_isSome (columns : List ProjectStatus) (tasks : List Task)
    (sid : String) :
    (tasksByStatusId columns tasks sid).isSome ↔ sid ∈ columns.map (·.id) := by
  rw [tasksByStatusId, foldl_pushTask_isSome]
  exact initBuckets_isSome columns sid

lemma tasksByStatusId_eq_filter (columns : List ProjectStatus) (tasks : List Task)
    (sid : String) (hsid : sid ∈ columns.map (·.id)) :
    tasksByStatusId columns tasks sid
      = some (tasks.filter (fun t => chooseBucket columns t == some sid)) := by
  rw [tasksByStatusId]
  have hinit : initBuckets columns sid = some [] := by
    simp [initBuckets, hsid]
  rw [foldl_pushTask_eq columns tasks (initBuckets columns) (initBuckets_isSome columns)
    sid [] hinit]
  simp

lemma chooseBucket_mem (columns : List ProjectStatus) (hne : columns ≠ []) (t : Task) :
    ∃ s, chooseBucket columns t = some s ∧ s ∈ columns.map (·.id) := by
  obtain ⟨c0, cs, rfl⟩ : ∃ c0 cs, columns = c0 :: cs := by
    cases columns with
    | nil => exact absurd rfl hne
    | cons c0 cs => exact ⟨c0, cs, rfl⟩
  cases hg : groupStatusId (c0 :: cs) t with
  | none =>
    refine ⟨c0.id, ?_, by simp⟩
    simp [chooseBucket, hg]
  | some s =>
    by_cases hcond : s ≠ "" ∧ s ∈ (c0 :: cs).map (·.id)
    · refine ⟨s, ?_, hcond.2⟩
      simp only [chooseBucket, hg]
      exact if_pos hcond
    · refine ⟨c0.id, ?_, by simp⟩
      simp only [chooseBucket, hg]
      rw [if_neg hcond]
      rfl

lemma sum_map_add_split (l : List String) (f g : String → Nat) :
    (l.map (fun x => f x + g x)).sum = (l.map f).sum + (l.map g).sum := by
  induction l with
  | nil => simp
  | cons a l ih =>
    simp only [List.map_cons, List.sum_cons, ih]
    omega

lemma sum_map_indicator_zero (s0 : String) :
    ∀ (ids : List String), s0 ∉ ids →
      (ids.map (fun sid => if s0 = sid then 1 else 0)).sum = 0
  | [], _ => rfl
  | a :: ids, h => by
    have ha : s0 ≠ a := fun hc => h (hc ▸ List.mem_cons_self a ids)
    simp only [List.map_cons, List.sum_cons, if_neg ha,
      sum_map_indicator_zero s0 ids (fun hc => h (List.mem_cons_of_mem a hc))]

lemma sum_map_indicator (s0 : String) :
    ∀ (ids : List String), ids.Nodup → s0 ∈ ids →
      (ids.map (fun sid => if s0 = sid then 1 else 0)).sum = 1
  | [], _, h => absurd h (List.not_mem_nil s0)
  | a :: ids, hnd, h => by
    by_cases ha : s0 = a
    · subst ha
      have hnotmem : s0 ∉ ids := (List.nodup_cons.mp hnd).1
      simp only [List.map_cons, List.sum_cons, if_pos rfl,
        sum_map_indicator_zero s0 ids hnotmem]
      simp
    · have hmem : s0 ∈ ids := by
        cases List.mem_cons.mp h with
        | inl hc => exact absurd hc ha
        | inr hc => exact hc
      simp only [List.map_cons, List.sum_cons, if_neg ha,
        sum_map_indicator s0 ids (List.nodup_cons.mp hnd).2 hmem]

lemma sum_filter_length_eq (ids : List String) (hnd : ids.Nodup) (f : Task → Option String) :
    ∀ (tasks : List Task), (∀ t ∈ tasks, ∃ s ∈ ids, f t = some s) →
      (ids.map (fun sid => (tasks.filter (fun t => f t == some sid)).length)).sum
        = tasks.length
  | [], _ => by simp
  | t :: ts, hall => by
    obtain ⟨s0, hs0mem, hs0⟩ := hall t (List.mem_cons_self t ts)
    have ih := sum_filter_length_eq ids hnd f ts
      (fun x hx => hall x (List.mem_cons_of_mem t hx))
    have hmap : ids.map (fun sid => ((t :: ts).filter (fun x => f x == some sid)).length)
        = ids.map (fun sid =>
            (if s0 = sid then 1 else 0) + (ts.filter (fun x => f x == some sid)).length) := by
      apply List.map_congr_left
      intro sid _
      rw [List.filter_cons]
      by_cases heq : s0 = sid
      · subst heq
        simp [hs0]
        omega
      · simp [hs0, heq]
    rw [hmap, sum_map_add_split, sum_map_indicator s0 ids hnd hs0mem, ih]
    simp only [List.length_cons]
    omega

/-- C2: for a non-empty column list, the grouping function assigns every card
to exactly one column bucket (never dropping or duplicating a card: the
bucket sizes add up to the number of cards); in particular, with columns
slugged `todo`, `in_progress`, `done` and a card with no column identifier
and legacy status `IN_REVIEW`, the card is placed in the first column
(`todo`). -/
theorem c2_grouping_total_no_loss (columns : List ProjectStatus) (tasks : List Task)
    (hne : columns ≠ []) :
    (∀ t ∈ tasks, ∃! sid : String,
      ∃ b, tasksByStatusId columns tasks sid = some b ∧ t ∈ b)
    ∧ bucketLengthSum columns tasks = tasks.length
    ∧ tasksByStatusId threeColumns [reviewCard] "todo" = some [reviewCard] := by
  refine ⟨?_, ?_, by decide⟩
  · intro t ht
    obtain ⟨s, hcb, hsmem⟩ := chooseBucket_mem columns hne t
    refine ⟨s, ⟨tasks.filter (fun x => chooseBucket columns x == some s),
      tasksByStatusId_eq_filter columns tasks s hsmem, ?_⟩, ?_⟩
    · rw [List.mem_filter]
      exact ⟨ht, by simp [hcb]⟩
    · rintro sid ⟨b, hb, htb⟩
      have hsidmem : sid ∈ columns.map (·.id) := by
        have := (tasksByStatusId_isSome columns tasks sid).mp (by rw [hb]; rfl)
        exact this
      rw [tasksByStatusId_eq_filter columns tasks sid hsidmem] at hb
      have hbval : b = tasks.filter (fun x => chooseBucket columns x == some sid) :=
        (Option.some.injEq _ _ ▸ hb).symm ▸ rfl
      subst hbval
      have := (List.mem_filter.mp htb).2
      have hcb2 : chooseBucket columns t = some sid := by
        simpa using this
      rw [hcb2] at hcb
      exact (Option.some.injEq _ _ ▸ hcb)
  · rw [bucketLengthSum]
    have hcong : ((columns.map (·.id)).dedup).map
          (fun sid => ((tasksByStatusId columns tasks sid).getD []).length)
        = ((columns.map (·.id)).dedup).map
          (fun sid => (tasks.filter (fun t => chooseBucket columns t == some sid)).length) := by
      apply List.map_congr_left
      intro sid hsid
      rw [tasksByStatusId_eq_filter columns tasks sid (List.mem_dedup.mp hsid)]
      rfl
    rw [hcong]
    apply sum_filter_length_eq _ (List.nodup_dedup _) _ tasks
    intro t ht
    obtain ⟨s, hcb, hsmem⟩ := chooseBucket_mem columns hne t
    exact ⟨s, List.mem_dedup.mpr hsmem, hcb⟩

/-- Witness for C2 on `threeColumns` with the two sample cards. -/
theorem c2_witness :
    threeColumns ≠ ([] : List ProjectStatus)
    ∧ bucketLengthSum threeColumns [reviewCard, todoCard] = 2 :=
  ⟨by decide,
   by
    have h := (c2_grouping_total_no_loss threeColumns [reviewCard, todoCard]
      (by decide)).2.1
    simpa using h⟩

/-- C10: every bucket produced by the grouping function lists its cards in
the same relative order as the input card list (it is a sublist of the
input). -/
theorem c10_buckets_preserve_input_order (columns : List ProjectStatus)
    (tasks : List Task) (sid : String) (b : List Task)
    (h : tasksByStatusId columns tasks sid = some b) : b.Sublist tasks := by
  have hsidmem : sid ∈ columns.map (·.id) :=
    (tasksByStatusId_isSome columns tasks sid).mp (by rw [h]; rfl)
  rw [tasksByStatusId_eq_filter columns tasks sid hsidmem] at h
  have hb : b = tasks.filter (fun t => chooseBucket columns t == some sid) :=
    (Option.some.inj h).symm
  rw [hb]
  exact List.filter_sublist tasks

/-- Witness for C10: the `todo` bucket of the C2 scenario. -/
theorem c10_witness :
    tasksByStatusId threeColumns [reviewCard, todoCard] "todo" = some [reviewCard, todoCard]
    ∧ List.Sublist [reviewCard, todoCard] [reviewCard, todoCard] :=
  ⟨by decide,
   c10_buckets_preserve_input_order threeColumns [reviewCard, todoCard] "todo"
     [reviewCard, todoCard] (by decide)⟩

end GhostPM
